import Mathlib

/-!
Verification of the RoBERTa embedding composer (`src/roberta/embeddings.rs`)
against its natural-language specification.

The Rust code manipulates `tch` tensors.  We shallowly embed the tensors the
module actually uses: 2-D integer tensors (token-id / position-id / segment-id
matrices) as a list of rows of `Int`, and 3-D value tensors (batch × sequence ×
hidden) as a list of matrices of `Int`.  Every tensor carries its device tag, so
that device-placement facts (`Tensor::zeros(..., input_embeddings.device())`)
are statable.  External `tch` layers whose internals lie outside the repository
(layer normalisation, the learned lookup-table contents) are carried as opaque
function fields of the corresponding structures; operations implemented in this
source file (`ne`, `cumsum`, `arange1`, `unsqueeze`/`expand`, the whole
`forward_t` control flow) are translated operation by operation.
-/

/-- Device tag of a tensor (`x.device()` in `tch`). -/
abbrev Device := Int

/-- A 2-D `Int64` tensor: a batch of rows, together with its device. -/
structure Mat where
  dev : Device
  rows : List (List Int)
deriving Repr, DecidableEq

/-- A 3-D value tensor (batch × sequence × hidden), with its device.
Element values are modelled as integers; none of the verified properties
depend on the real-number arithmetic of the hidden values. -/
structure T3 where
  dev : Device
  vals : List (List (List Int))
deriving Repr, DecidableEq

/-- Translation of `x.size()[0]` of a 2-D tensor. -/
def Mat.dim0 (m : Mat) : Nat := m.rows.length

/-- Translation of `x.size()[1]` of a (rectangular) 2-D tensor. -/
def Mat.dim1 (m : Mat) : Nat := ((m.rows.head?).getD []).length

/-- Translation of `x.size()[0]` of a 3-D tensor. -/
def T3.dim0 (t : T3) : Nat := t.vals.length

/-- Translation of `x.size()[1]` of a (rectangular) 3-D tensor. -/
def T3.dim1 (t : T3) : Nat := ((t.vals.head?).getD []).length

/-- Translation of `Tensor::zeros(&[b, s], (Kind::Int64, dev))`. -/
def zerosMat (b s : Nat) (dev : Device) : Mat :=
  ⟨dev, List.replicate b (List.replicate s 0)⟩

/-- A 1-D `Int64` tensor, with its device. -/
structure Vec1 where
  dev : Device
  elems : List Int
deriving Repr, DecidableEq

/-- Translation of `Tensor::arange1(start, end, (Kind::Int64, dev))`:
the integer sequence `start, start+1, …, end-1` (empty when `end ≤ start`). -/
def arange1 (start stop : Int) (dev : Device) : Vec1 :=
  ⟨dev, (List.range (stop - start).toNat).map (fun i => start + i)⟩

/-- Translation of `v.unsqueeze(0)`: a 1-D tensor viewed as a 1 × n matrix. -/
def Vec1.unsqueeze0 (v : Vec1) : Mat := ⟨v.dev, [v.elems]⟩

/-- Translation of `m.expand(&[b, s], true)` for a 1 × n matrix `m` (the only rank produced by
`unsqueeze0` here).  `torch` broadcast rules: a dimension of size 1 may be
expanded to any requested size, any other dimension must already equal the
requested size; otherwise the operation is a runtime error (`none`). -/
def Mat.expand2 (m : Mat) (b s : Nat) : Option Mat :=
  match m.rows with
  | [row] =>
      if row.length = s then some ⟨m.dev, List.replicate b row⟩
      else if row.length = 1 then
        some ⟨m.dev, List.replicate b (List.replicate s (row.headD 0))⟩
      else none
  | _ => none

/-- Running cumulative sum of a list of integers with accumulator `acc`
(`mask.cumsum(1, Kind::Int64)` acts row-wise with `acc = 0`). -/
def cumsumAux (acc : Int) : List Int → List Int
  | [] => []
  | a :: as => (acc + a) :: cumsumAux (acc + a) as

/-- Row-wise cumulative sum along dimension 1: `t.cumsum(1, Kind::Int64)`. -/
def Mat.cumsum1 (m : Mat) : Mat := ⟨m.dev, m.rows.map (cumsumAux 0)⟩

/-- Translation of `x.ne(c).to_kind(Kind::Int64)`: elementwise inequality test, as 0/1. -/
def Mat.neScalar (m : Mat) (c : Int) : Mat :=
  ⟨m.dev, m.rows.map (fun r => r.map (fun a => if a ≠ c then (1 : Int) else 0))⟩

/-- Elementwise product of two matrices (`Tensor * Tensor` on equal shapes). -/
def Mat.hmul (a b : Mat) : Mat :=
  ⟨a.dev, List.zipWith (List.zipWith (· * ·)) a.rows b.rows⟩

/-- Adding a scalar to every entry (`Tensor + i64`). -/
def Mat.addScalar (m : Mat) (c : Int) : Mat :=
  ⟨m.dev, m.rows.map (fun r => r.map (· + c))⟩

/-- Configuration record of a `tch` `nn::Embedding`
(`EmbeddingConfig`; only the field this module sets is carried). -/
structure EmbeddingConfig where
  padding_idx : Int
deriving Repr, DecidableEq

/-- Translation of `EmbeddingConfig::default()` in `tch`: `padding_idx = -1`, meaning that no
index of the table is reserved as a padding index. -/
def EmbeddingConfig.default : EmbeddingConfig := ⟨-1⟩

/-- A `tch` `nn::Embedding`: a learned lookup table.  The table contents are
learned externally; lookup is carried as an opaque total function from index to
hidden vector. -/
structure Embedding where
  num_embeddings : Int
  embedding_dim : Int
  config : EmbeddingConfig
  lookup : Int → List Int

/-- Translation of `tch::nn::embedding(path, num, dim, config)`.  Weight initialisation is the
runtime's; the initialised table contents are taken as a parameter. -/
def embedding (num dim : Int) (config : EmbeddingConfig)
    (lookup : Int → List Int) : Embedding :=
  ⟨num, dim, config, lookup⟩

/-- Applying an embedding lookup to a 2-D index tensor
(`ids.apply(&emb)`, giving a batch × sequence × hidden tensor on the
input's device). -/
def Embedding.applyM (e : Embedding) (m : Mat) : T3 :=
  ⟨m.dev, m.rows.map (fun r => r.map e.lookup)⟩

/-- Translation of `input_value.apply_t(&self.word_embeddings, train)`: for an embedding
lookup the training flag does not alter the lookup. -/
def Embedding.applyT (e : Embedding) (m : Mat) (_train : Bool) : T3 :=
  e.applyM m

/-- A `tch` `nn::LayerNorm`: an epsilon constant together with the learned
scale/shift transform, carried as an opaque function on value tensors. -/
structure LayerNorm where
  eps : ℚ
  app : T3 → T3

/-- Modelled from the spec: `Dropout` lives in `src/common/dropout.rs`, which
is not part of the sources under study.  Per the spec's RegularizationStep it
is a "stateless transform that, only in training mode, zeroes elements
independently at a configured probability and rescales survivors; identity
transform otherwise."  The stochastic training-mode behaviour is carried as an
opaque function `mask`; in evaluation mode the transform is the identity. -/
structure Dropout where
  p : ℚ
  mask : T3 → T3

/-- Modelled from the spec: `Dropout::new(p)` stores the drop probability.
The stochastic masking realised at apply time is taken as a parameter. -/
def Dropout.new (p : ℚ) (mask : T3 → T3) : Dropout := ⟨p, mask⟩

/-- Modelled from the spec: applying the regularization step.  Identity when
`train` is false, the stochastic mask otherwise. -/
def Dropout.apply_t (d : Dropout) (x : T3) (train : Bool) : T3 :=
  if train then d.mask x else x

/-- Modelled from the spec: the Configuration record ("immutable record
supplying vocabulary size, maximum position count, segment-type count, hidden
dimensionality, normalization epsilon, and regularization probability"); the
concrete `BertConfig` type lives outside the sources under study, and only the
fields read by `RobertaEmbeddings::new` are carried. -/
structure BertConfig where
  vocab_size : Int
  hidden_size : Int
  max_position_embeddings : Int
  type_vocab_size : Int
  hidden_dropout_prob : ℚ

/-- The `RobertaEmbeddings` struct. -/
structure RobertaEmbeddings where
  word_embeddings : Embedding
  position_embeddings : Embedding
  token_type_embeddings : Embedding
  layer_norm : LayerNorm
  dropout : Dropout
  padding_index : Int

/-- Translation of `RobertaEmbeddings::create_position_ids_from_input_ids`:
```
let mask: Tensor = x.ne(self.padding_index).to_kind(Kind::Int64);
mask.cumsum(1, Kind::Int64) * mask + self.padding_index
``` -/
def RobertaEmbeddings.create_position_ids_from_input_ids
    (self : RobertaEmbeddings) (x : Mat) : Mat :=
  let mask : Mat := x.neScalar self.padding_index
  ((mask.cumsum1).hmul mask).addScalar self.padding_index

/-- Translation of `RobertaEmbeddings::create_position_ids_from_embeddings`:
```
let input_shape = x.size();
let input_shape = vec!(input_shape[0], input_shape[1]);
let position_ids = Tensor::arange1(self.padding_index + 1, input_shape[0],
                                   (Kind::Int64, x.device()));
position_ids.unsqueeze(0).expand(&input_shape, true)
```
Note the `arange1` upper bound is `input_shape[0]`, the batch size.  The
`expand` can fail at runtime (modelled as `none`). -/
def RobertaEmbeddings.create_position_ids_from_embeddings
    (self : RobertaEmbeddings) (x : T3) : Option Mat :=
  let input_shape : Nat × Nat := (x.dim0, x.dim1)
  let position_ids : Vec1 :=
    arange1 (self.padding_index + 1) (Int.ofNat input_shape.1) x.dev
  (position_ids.unsqueeze0).expand2 input_shape.1 input_shape.2

/-- Translation of `RobertaEmbeddings::new` (the `BertEmbedding` impl).  The learned contents
of the three tables, the learned layer-norm transform and the dropout mask are
produced by the runtime and are taken as parameters; every configuration value
the source sets is translated as written. -/
def RobertaEmbeddings.new (config : BertConfig)
    (wordTable posTable typeTable : Int → List Int)
    (lnApp : T3 → T3) (dropMask : T3 → T3) : RobertaEmbeddings :=
  let embedding_config : EmbeddingConfig := { EmbeddingConfig.default with padding_idx := 1 }
  let word_embeddings : Embedding :=
    embedding config.vocab_size config.hidden_size embedding_config wordTable
  let position_embeddings : Embedding :=
    embedding config.max_position_embeddings config.hidden_size
      EmbeddingConfig.default posTable
  let token_type_embeddings : Embedding :=
    embedding config.type_vocab_size config.hidden_size
      EmbeddingConfig.default typeTable
  let layer_norm : LayerNorm := ⟨1 / 10 ^ 12, lnApp⟩
  let dropout : Dropout := Dropout.new config.hidden_dropout_prob dropMask
  ⟨word_embeddings, position_embeddings, token_type_embeddings,
   layer_norm, dropout, 1⟩

/-- Elementwise sum of two 3-D value tensors (`Tensor + Tensor`; the module
adds three tensors of identical shape). -/
def T3.add (a b : T3) : T3 :=
  ⟨a.dev, List.zipWith (List.zipWith (List.zipWith (· + ·))) a.vals b.vals⟩

/-- The `position_ids` resolution inside `forward_t`:
```
let position_ids = match position_ids {
    Some(value) => value,
    None => match input_ids {
        Some(value) => self.create_position_ids_from_input_ids(&value),
        None => self.create_position_ids_from_embeddings(&input_embeds.unwrap())
    }
};
```
`none` records a runtime failure of the embeddings-based derivation (and the
unreachable `unwrap` of an absent `input_embeds`, which `forward_t` guards). -/
def RobertaEmbeddings.resolve_position_ids (self : RobertaEmbeddings)
    (position_ids : Option Mat) (input_ids : Option Mat)
    (input_embeds : Option T3) : Option Mat :=
  match position_ids with
  | some value => some value
  | none =>
      match input_ids with
      | some value => some (self.create_position_ids_from_input_ids value)
      | none =>
          match input_embeds with
          | some embeds => self.create_position_ids_from_embeddings embeds
          | none => none

/-- The tail of `forward_t` after the base embedding, logical shape and
position ids are resolved:
```
let token_type_ids = match token_type_ids {
    Some(value) => value,
    None => Tensor::zeros(&input_shape, (Kind::Int64, input_embeddings.device()))
};
let position_embeddings = position_ids.apply(&self.position_embeddings);
let token_type_embeddings = token_type_ids.apply(&self.token_type_embeddings);
let input_embeddings = input_embeddings + position_embeddings + token_type_embeddings;
Ok(input_embeddings.apply(&self.layer_norm).apply_t(&self.dropout, train))
```
A `none` for the position ids is a propagated runtime failure. -/
def RobertaEmbeddings.forwardTail (self : RobertaEmbeddings)
    (input_embeddings : T3) (input_shape : Nat × Nat)
    (position_ids : Option Mat) (token_type_ids : Option Mat)
    (train : Bool) : Option T3 :=
  match position_ids with
  | none => none
  | some position_ids =>
      let token_type_ids : Mat :=
        match token_type_ids with
        | some value => value
        | none => zerosMat input_shape.1 input_shape.2 input_embeddings.dev
      let position_embeddings : T3 := self.position_embeddings.applyM position_ids
      let token_type_embeddings : T3 := self.token_type_embeddings.applyM token_type_ids
      let input_embeddings : T3 :=
        (input_embeddings.add position_embeddings).add token_type_embeddings
      some (self.dropout.apply_t (self.layer_norm.app input_embeddings) train)

/-- The fixed error string of `forward_t`. -/
def contractErr : String := "Only one of input ids or input embeddings may be set"

/-- Translation of `RobertaEmbeddings::forward_t`.  The `Result<Tensor, &'static str>` is an
`Except String`; an inner `none` records a runtime failure of the underlying
tensor runtime (the spec's RuntimeNumericError), which the source neither
catches nor re-wraps. -/
def RobertaEmbeddings.forward_t (self : RobertaEmbeddings)
    (input_ids : Option Mat) (token_type_ids : Option Mat)
    (position_ids : Option Mat) (input_embeds : Option T3)
    (train : Bool) : Except String (Option T3) :=
  match input_ids, input_embeds with
  | some _, some _ => .error contractErr
  | none, none => .error contractErr
  | some input_value, none =>
      let input_embeddings := self.word_embeddings.applyT input_value train
      let input_shape := (input_value.dim0, input_value.dim1)
      .ok (self.forwardTail input_embeddings input_shape
        (self.resolve_position_ids position_ids (some input_value) none)
        token_type_ids train)
  | none, some embeds =>
      let input_embeddings := embeds
      let input_shape := (embeds.dim0, embeds.dim1)
      .ok (self.forwardTail input_embeddings input_shape
        (self.resolve_position_ids position_ids none (some embeds))
        token_type_ids train)

/-!
## Spec-side characterisations, shape predicates and test fixtures
-/

/-- The mask row of the spec's padding-aware cumulative scheme: 1 where the
token id differs from the padding index, 0 where it equals it. -/
def cumulativeMaskRow (pad : Int) (r : List Int) : List Int :=
  r.map (fun a => if a ≠ pad then (1 : Int) else 0)

/-- The spec's padding-aware cumulative scheme stated row by row, following
the spec's words: cumulative sum of the mask, multiplied elementwise by the
mask, plus the padding index constant. -/
def cumulativeSchemeRow (pad : Int) (r : List Int) : List Int :=
  (List.zipWith (· * ·) (cumsumAux 0 (cumulativeMaskRow pad r))
    (cumulativeMaskRow pad r)).map (· + pad)

/-- The spec's padding-aware cumulative scheme applied to every row of a
token-id matrix. -/
def cumulativeScheme (pad : Int) (x : Mat) : Mat :=
  ⟨x.dev, x.rows.map (cumulativeSchemeRow pad)⟩

/-- A 2-D tensor of shape `b × s`. -/
def MatShape (m : Mat) (b s : Nat) : Prop :=
  m.rows.length = b ∧ ∀ r ∈ m.rows, r.length = s

/-- A 3-D tensor of shape `b × s × h`. -/
def T3Shape (t : T3) (b s h : Nat) : Prop :=
  t.vals.length = b ∧ ∀ p ∈ t.vals, p.length = s ∧ ∀ v ∈ p, v.length = h

instance (m : Mat) (b s : Nat) : Decidable (MatShape m b s) := by
  unfold MatShape; infer_instance

instance (t : T3) (b s h : Nat) : Decidable (T3Shape t b s h) := by
  unfold T3Shape; infer_instance

/-- A concrete lookup table used by test instantiations. -/
def testTable (i : Int) : List Int := [i, i + 1]

/-- A concrete composer built by `RobertaEmbeddings.new` for test
instantiations (hidden size 2, identity layer norm and dropout mask). -/
def Mtest : RobertaEmbeddings :=
  RobertaEmbeddings.new ⟨50000, 2, 514, 2, 1 / 10⟩ testTable testTable testTable id id

/-!
## Helper lemmas
-/

/-- Lemma: `cumsumAux` preserves the length of the row. -/
theorem cumsumAux_length (l : List Int) : ∀ acc : Int, (cumsumAux acc l).length = l.length := by
  induction l with
  | nil => intro acc; rfl
  | cons a as ih => intro acc; simp [cumsumAux, ih]

/-- The matrix-operation pipeline of `create_position_ids_from_input_ids`
coincides with the spec's row-by-row cumulative scheme. -/
theorem create_position_ids_eq_cumulativeScheme (self : RobertaEmbeddings) (x : Mat) :
    self.create_position_ids_from_input_ids x = cumulativeScheme self.padding_index x := by
  unfold RobertaEmbeddings.create_position_ids_from_input_ids cumulativeScheme
  unfold Mat.neScalar Mat.cumsum1 Mat.hmul Mat.addScalar
  simp only [List.map_map, List.zipWith_map, List.zipWith_same]
  congr 1

/-- Every row of the cumulative scheme has the length of the input row. -/
theorem cumulativeSchemeRow_length (pad : Int) (r : List Int) :
    (cumulativeSchemeRow pad r).length = r.length := by
  simp [cumulativeSchemeRow, cumulativeMaskRow, cumsumAux_length]

/-- Every entry of the mask row is 0 or 1. -/
theorem cumulativeMaskRow_mem (pad : Int) (r : List Int) :
    ∀ a ∈ cumulativeMaskRow pad r, a = 0 ∨ a = 1 := by
  intro a ha
  rcases List.mem_map.mp ha with ⟨t, _, rfl⟩
  by_cases h : t ≠ pad <;> simp [h]

/-- Entries of (cumulative sum of a 0/1 list) × (the same list) lie between 0
and the accumulator plus the list length. -/
theorem cumsum_mul_bounds :
    ∀ (ms : List Int) (acc : Int), 0 ≤ acc → (∀ m ∈ ms, m = 0 ∨ m = 1) →
      ∀ y ∈ List.zipWith (· * ·) (cumsumAux acc ms) ms,
        0 ≤ y ∧ y ≤ acc + ms.length := by
  intro ms
  induction ms with
  | nil => intro acc _ _ y hy; simp [cumsumAux] at hy
  | cons m rest ih =>
      intro acc hacc hm y hy
      have hm0 : m = 0 ∨ m = 1 := hm m (List.mem_cons_self m rest)
      rw [cumsumAux] at hy
      rw [List.zipWith_cons_cons] at hy
      rcases List.mem_cons.mp hy with rfl | hy
      · rcases hm0 with h | h <;> subst h <;>
          simp only [List.length_cons] <;> constructor <;> push_cast <;> nlinarith
      · have hrest : ∀ m' ∈ rest, m' = 0 ∨ m' = 1 :=
          fun m' hm' => hm m' (List.mem_cons_of_mem m hm')
        have hacc' : 0 ≤ acc + m := by rcases hm0 with h | h <;> omega
        have := ih (acc + m) hacc' hrest y hy
        have hm1 : m ≤ 1 := by rcases hm0 with h | h <;> omega
        constructor
        · exact this.1
        · have := this.2
          simp only [List.length_cons]
          push_cast
          omega

/-- Each entry of a cumulative-scheme row lies between the padding index and
the padding index plus the row length. -/
theorem cumulativeSchemeRow_bounds (pad : Int) (r : List Int) :
    ∀ y ∈ cumulativeSchemeRow pad r, pad ≤ y ∧ y ≤ pad + r.length := by
  intro y hy
  unfold cumulativeSchemeRow at hy
  rcases List.mem_map.mp hy with ⟨z, hz, rfl⟩
  have hb := cumsum_mul_bounds (cumulativeMaskRow pad r) 0 le_rfl
    (cumulativeMaskRow_mem pad r) z hz
  have hlen : (cumulativeMaskRow pad r).length = r.length := by
    simp [cumulativeMaskRow]
  rw [hlen] at hb
  omega

/-- In (cumulative sum of the mask) × mask, positions whose token id equals
the padding index carry the value 0. -/
theorem cumsum_mul_zero_at_pad (pad : Int) :
    ∀ (r : List Int) (acc : Int),
      ∀ q ∈ r.zip (List.zipWith (· * ·) (cumsumAux acc (cumulativeMaskRow pad r))
        (cumulativeMaskRow pad r)),
        q.1 = pad → q.2 = 0 := by
  intro r
  induction r with
  | nil => intro acc q hq; simp [cumulativeMaskRow, cumsumAux] at hq
  | cons t ts ih =>
      intro acc q hq hq1
      rw [show cumulativeMaskRow pad (t :: ts)
            = (if t ≠ pad then (1 : Int) else 0) :: cumulativeMaskRow pad ts from rfl] at hq
      rw [cumsumAux] at hq
      rw [List.zipWith_cons_cons] at hq
      rw [List.zip_cons_cons] at hq
      rcases List.mem_cons.mp hq with h | h
      · have ht : q.1 = t := by rw [h]
        have : t = pad := by rw [← ht, hq1]
        rw [h]
        simp [this]
      · exact ih (acc + (if t ≠ pad then (1 : Int) else 0)) q h hq1

/-- In a cumulative-scheme row, positions whose token id equals the padding
index receive exactly the padding index. -/
theorem cumulativeSchemeRow_pad (pad : Int) (r : List Int) :
    ∀ q ∈ r.zip (cumulativeSchemeRow pad r), q.1 = pad → q.2 = pad := by
  intro q hq hq1
  unfold cumulativeSchemeRow at hq
  rw [List.zip_map_right] at hq
  rcases List.mem_map.mp hq with ⟨p, hp, rfl⟩
  have := cumsum_mul_zero_at_pad pad r 0 p hp (by simpa using hq1)
  simp [Prod.map, this]

/-- Lemma: `zerosMat` has the requested shape. -/
theorem zerosMat_shape (b s : Nat) (d : Device) : MatShape (zerosMat b s d) b s := by
  constructor
  · simp [zerosMat]
  · intro r hr
    rcases List.eq_of_mem_replicate hr with rfl
    simp

/-- First dimension of a shaped matrix. -/
theorem matShape_dim0_eq {m : Mat} {b s : Nat} (h : MatShape m b s) : m.dim0 = b := h.1

/-- Second dimension of a shaped matrix (degenerate when the batch is empty). -/
theorem matShape_dim1_eq {m : Mat} {b s : Nat} (h : MatShape m b s) :
    m.dim1 = s ∨ b = 0 := by
  rcases hr : m.rows with _ | ⟨r, rs⟩
  · right
    rw [← h.1, hr]
    rfl
  · left
    have : r.length = s := h.2 r (by rw [hr]; exact List.mem_cons_self r rs)
    rw [Mat.dim1, hr]
    simpa using this

/-- First dimension of a shaped 3-D tensor. -/
theorem t3Shape_dim0_eq {t : T3} {b s h : Nat} (ht : T3Shape t b s h) : t.dim0 = b := ht.1

/-- Second dimension of a shaped 3-D tensor (degenerate when the batch is
empty). -/
theorem t3Shape_dim1_eq {t : T3} {b s h : Nat} (ht : T3Shape t b s h) :
    t.dim1 = s ∨ b = 0 := by
  rcases hv : t.vals with _ | ⟨p, ps⟩
  · right
    rw [← ht.1, hv]
    rfl
  · left
    have : p.length = s := (ht.2 p (by rw [hv]; exact List.mem_cons_self p ps)).1
    rw [T3.dim1, hv]
    simpa using this

/-- A matrix with an empty batch has every shape with batch 0. -/
theorem matShape_of_rows_nil {m : Mat} (h : m.rows = []) (s : Nat) : MatShape m 0 s := by
  constructor
  · rw [h]; rfl
  · intro r hr; rw [h] at hr; simp at hr

/-- An embedding lookup maps a `b × s` index matrix to a `b × s × h` tensor
when every table row has length `h`. -/
theorem applyM_shape {e : Embedding} {m : Mat} {b s h : Nat}
    (hm : MatShape m b s) (hl : ∀ i : Int, (e.lookup i).length = h) :
    T3Shape (e.applyM m) b s h := by
  constructor
  · simp [Embedding.applyM, hm.1]
  · intro p hp
    rcases List.mem_map.mp hp with ⟨r, hr, rfl⟩
    constructor
    · simp [hm.2 r hr]
    · intro v hv
      rcases List.mem_map.mp hv with ⟨i, _, rfl⟩
      exact hl i

/-- The padding-aware derivation preserves the shape of the id matrix. -/
theorem create_position_ids_shape {self : RobertaEmbeddings} {x : Mat} {b s : Nat}
    (hx : MatShape x b s) :
    MatShape (self.create_position_ids_from_input_ids x) b s := by
  rw [create_position_ids_eq_cumulativeScheme]
  constructor
  · simp [cumulativeScheme, hx.1]
  · intro r hr
    rcases List.mem_map.mp hr with ⟨r0, hr0, rfl⟩
    rw [cumulativeSchemeRow_length]
    exact hx.2 r0 hr0

/-- A successful `expand` to `b × s` produces a `b × s` matrix. -/
theorem expand2_shape {m : Mat} {b s : Nat} {r : Mat}
    (h : m.expand2 b s = some r) : MatShape r b s := by
  unfold Mat.expand2 at h
  split at h
  · rename_i row
    split at h
    · rename_i hs
      injection h with h
      subst h
      constructor
      · simp
      · intro r' hr'
        rcases List.eq_of_mem_replicate hr' with rfl
        exact hs
    · split at h
      · injection h with h
        subst h
        constructor
        · simp
        · intro r' hr'
          rcases List.eq_of_mem_replicate hr' with rfl
          simp
      · exact absurd h (by simp)
  · exact absurd h (by simp)

/-- Membership in a `zipWith` under pointwise preservation of predicates. -/
theorem mem_zipWith_of_forall {α β γ : Type} {f : α → β → γ}
    {P : α → Prop} {Q : β → Prop} {R : γ → Prop}
    (hf : ∀ a b, P a → Q b → R (f a b)) :
    ∀ (xs : List α) (ys : List β), (∀ a ∈ xs, P a) → (∀ b ∈ ys, Q b) →
      ∀ c ∈ List.zipWith f xs ys, R c := by
  intro xs
  induction xs with
  | nil => intro ys _ _ c hc; simp at hc
  | cons x xs ih =>
      intro ys hxs hys c hc
      cases ys with
      | nil => simp at hc
      | cons y ys =>
          rw [List.zipWith_cons_cons] at hc
          rcases List.mem_cons.mp hc with rfl | hc
          · exact hf x y (hxs x (List.mem_cons_self x xs)) (hys y (List.mem_cons_self y ys))
          · exact ih ys (fun a ha => hxs a (List.mem_cons_of_mem x ha))
              (fun b hb => hys b (List.mem_cons_of_mem y hb)) c hc

/-- Elementwise addition of two `b × s × h` tensors is a `b × s × h` tensor. -/
theorem add_shape {a c : T3} {b s h : Nat}
    (ha : T3Shape a b s h) (hc : T3Shape c b s h) : T3Shape (a.add c) b s h := by
  constructor
  · simp [T3.add, List.length_zipWith, ha.1, hc.1]
  · refine mem_zipWith_of_forall ?_ a.vals c.vals ha.2 hc.2
    intro p q hp hq
    constructor
    · simp [List.length_zipWith, hp.1, hq.1]
    · refine mem_zipWith_of_forall ?_ p q hp.2 hq.2
      intro v w hv hw
      simp [List.length_zipWith, hv, hw]

/-- Shape of the output of the tail of `forward_t`, given shaped inputs. -/
theorem forwardTail_shape {self : RobertaEmbeddings} {b s h : Nat}
    (hp : ∀ i : Int, (self.position_embeddings.lookup i).length = h)
    (ht : ∀ i : Int, (self.token_type_embeddings.lookup i).length = h)
    (hln : ∀ t : T3, T3Shape t b s h → T3Shape (self.layer_norm.app t) b s h)
    (hdm : ∀ t : T3, T3Shape t b s h → T3Shape (self.dropout.mask t) b s h)
    {base : T3} (hbase : T3Shape base b s h)
    {shape : Nat × Nat} (hshape1 : shape.1 = b) (hshape2 : shape.2 = s ∨ b = 0)
    {pids : Option Mat} (hpids : ∀ m : Mat, pids = some m → MatShape m b s)
    {tt : Option Mat} (htt : ∀ m : Mat, tt = some m → MatShape m b s)
    {train : Bool} {out : T3}
    (hout : self.forwardTail base shape pids tt train = some out) :
    T3Shape out b s h := by
  cases pids with
  | none => simp [RobertaEmbeddings.forwardTail] at hout
  | some p =>
      have hpshape : MatShape p b s := hpids p rfl
      have hpe : T3Shape (self.position_embeddings.applyM p) b s h :=
        applyM_shape hpshape hp
      have hkey : ∀ m : Mat, MatShape m b s →
          T3Shape (self.dropout.apply_t (self.layer_norm.app
            ((base.add (self.position_embeddings.applyM p)).add
              (self.token_type_embeddings.applyM m))) train) b s h := by
        intro m hm
        have hte : T3Shape (self.token_type_embeddings.applyM m) b s h :=
          applyM_shape hm ht
        have hn := hln _ (add_shape (add_shape hbase hpe) hte)
        cases train with
        | true => simpa [Dropout.apply_t] using hdm _ hn
        | false => simpa [Dropout.apply_t] using hn
      cases tt with
      | some v =>
          simp only [RobertaEmbeddings.forwardTail, Option.some.injEq] at hout
          rw [← hout]
          exact hkey v (htt v rfl)
      | none =>
          have hz : MatShape (zerosMat shape.1 shape.2 base.dev) b s := by
            rcases hshape2 with hs2 | hb0
            · rw [hshape1, hs2]
              exact zerosMat_shape b s base.dev
            · rw [hshape1, hb0]
              exact matShape_of_rows_nil (by simp [zerosMat]) s
          simp only [RobertaEmbeddings.forwardTail, Option.some.injEq] at hout
          rw [← hout]
          exact hkey _ hz

/-!
## Claim theorems
-/

/-- C1: when token ids are given and no explicit position ids are supplied,
`forward_t` derives position ids by the padding-aware cumulative scheme
(mask of non-padding positions, running cumulative sum, multiplied by the
mask, plus the padding index); with padding index 1, `[[5, 7, 1, 1]]` yields
`[[2, 3, 1, 1]]` and `[[1, 5, 7, 1, 9]]` yields `[[1, 2, 3, 1, 4]]`. -/
theorem forward_position_ids_cumulative_scheme :
    (∀ (self : RobertaEmbeddings) (x : Mat),
        self.create_position_ids_from_input_ids x
          = cumulativeScheme self.padding_index x) ∧
    (∀ (self : RobertaEmbeddings) (ids : Mat) (embeds : Option T3),
        self.resolve_position_ids none (some ids) embeds
          = some (self.create_position_ids_from_input_ids ids)) ∧
    (∀ self : RobertaEmbeddings, self.padding_index = 1 →
        self.create_position_ids_from_input_ids ⟨0, [[5, 7, 1, 1]]⟩
            = ⟨0, [[2, 3, 1, 1]]⟩ ∧
        self.create_position_ids_from_input_ids ⟨0, [[1, 5, 7, 1, 9]]⟩
            = ⟨0, [[1, 2, 3, 1, 4]]⟩) := by
  refine ⟨create_position_ids_eq_cumulativeScheme, fun _ _ _ => rfl, ?_⟩
  intro self hpad
  rw [create_position_ids_eq_cumulativeScheme, create_position_ids_eq_cumulativeScheme,
    hpad]
  exact ⟨by decide, by decide⟩

/-- Witness for C1 at a concrete composer with padding index 1. -/
theorem forward_position_ids_cumulative_scheme_witness :
    Mtest.create_position_ids_from_input_ids ⟨0, [[5, 7, 1, 1]]⟩ = ⟨0, [[2, 3, 1, 1]]⟩ ∧
    Mtest.create_position_ids_from_input_ids ⟨0, [[1, 5, 7, 1, 9]]⟩
        = ⟨0, [[1, 2, 3, 1, 4]]⟩ :=
  forward_position_ids_cumulative_scheme.2.2 Mtest rfl

/-- C2 (code bug): at the spec's own example — precomputed token vectors of
shape (batch = 2, seq = 3, hidden = 1) with no explicit position ids — the
code does not produce rows `[2, 3, 4]`: `create_position_ids_from_embeddings`
passes the batch size (`input_shape[0]`) as the `arange` upper bound, so it
builds `arange(2, 2) = []` and the expansion of an empty row to width 3 is a
runtime error (`none`). -/
theorem create_position_ids_from_embeddings_fails_on_spec_example :
    Mtest.create_position_ids_from_embeddings
        ⟨0, [[[1], [2], [3]], [[4], [5], [6]]]⟩ = none ∧
    Mtest.resolve_position_ids none none
        (some ⟨0, [[[1], [2], [3]], [[4], [5], [6]]]⟩) = none ∧
    (none : Option Mat) ≠ some ⟨0, [[2, 3, 4], [2, 3, 4]]⟩ :=
  ⟨rfl, rfl, by decide⟩

/-- C3 (counterexample): the fixed error message of `forward_t` is the
source's "Only one of input ids or input embeddings may be set", not the
message quoted by the claim. -/
theorem forward_contract_message_counterexample :
    Mtest.forward_t none none none none false = .error contractErr ∧
    contractErr ≠ "exactly one of token identifiers or token vectors must be supplied." :=
  ⟨rfl, by decide⟩

/-- C3 (amended): for every call in which both or neither of token ids and
token vectors are supplied, `forward_t` returns the contract-violation error
with the fixed message "Only one of input ids or input embeddings may be
set"; this holds for every table contents, so no lookup-table read affects
the result. -/
theorem forward_contract_violation :
    (∀ (self : RobertaEmbeddings) (ids : Mat) (tt pos : Option Mat) (embeds : T3)
        (train : Bool),
        self.forward_t (some ids) tt pos (some embeds) train = .error contractErr) ∧
    (∀ (self : RobertaEmbeddings) (tt pos : Option Mat) (train : Bool),
        self.forward_t none tt pos none train = .error contractErr) :=
  ⟨fun _ _ _ _ _ _ => rfl, fun _ _ _ _ => rfl⟩

/-- C4: for every valid call whose position ids resolve, the returned tensor
is the regularization step (with the given training flag) applied to the
normalization transform applied to the elementwise sum
base + position embedding + segment embedding, in exactly that order, with no
other transformation. -/
theorem forward_composition_order :
    (∀ (self : RobertaEmbeddings) (ids : Mat) (tt pos : Option Mat) (train : Bool)
        (pids : Mat),
        self.resolve_position_ids pos (some ids) none = some pids →
        self.forward_t (some ids) tt pos none train =
          .ok (some (self.dropout.apply_t (self.layer_norm.app
            (((self.word_embeddings.applyT ids train).add
                (self.position_embeddings.applyM pids)).add
              (self.token_type_embeddings.applyM (tt.getD
                (zerosMat ids.dim0 ids.dim1
                  (self.word_embeddings.applyT ids train).dev)))))
            train))) ∧
    (∀ (self : RobertaEmbeddings) (tt pos : Option Mat) (embeds : T3) (train : Bool)
        (pids : Mat),
        self.resolve_position_ids pos none (some embeds) = some pids →
        self.forward_t none tt pos (some embeds) train =
          .ok (some (self.dropout.apply_t (self.layer_norm.app
            ((embeds.add (self.position_embeddings.applyM pids)).add
              (self.token_type_embeddings.applyM (tt.getD
                (zerosMat embeds.dim0 embeds.dim1 embeds.dev)))))
            train))) := by
  constructor
  · intro self ids tt pos train pids hres
    simp only [RobertaEmbeddings.forward_t]
    rw [hres]
    cases tt <;> rfl
  · intro self tt pos embeds train pids hres
    simp only [RobertaEmbeddings.forward_t]
    rw [hres]
    cases tt <;> rfl

/-- Witness for C4 at a concrete composer and id matrix. -/
theorem forward_composition_order_witness :
    Mtest.forward_t (some ⟨0, [[5, 1]]⟩) none none none false =
      .ok (some (Mtest.dropout.apply_t (Mtest.layer_norm.app
        (((Mtest.word_embeddings.applyT ⟨0, [[5, 1]]⟩ false).add
            (Mtest.position_embeddings.applyM
              (Mtest.create_position_ids_from_input_ids ⟨0, [[5, 1]]⟩))).add
          (Mtest.token_type_embeddings.applyM ((none : Option Mat).getD
            (zerosMat (Mat.dim0 ⟨0, [[5, 1]]⟩) (Mat.dim1 ⟨0, [[5, 1]]⟩)
              (Mtest.word_embeddings.applyT ⟨0, [[5, 1]]⟩ false).dev)))))
        false)) :=
  forward_composition_order.1 Mtest ⟨0, [[5, 1]]⟩ none none false
    (Mtest.create_position_ids_from_input_ids ⟨0, [[5, 1]]⟩) rfl

/-- C5: an explicitly supplied `position_ids` argument bypasses both
derivation schemes: the resolution returns it unchanged whatever the other
arguments are, and the output is computed from it as-is — for every value of
the explicit ids, including ones that collide with the padding-index
semantics. -/
theorem explicit_position_ids_bypass :
    (∀ (self : RobertaEmbeddings) (p : Mat) (ids : Option Mat) (embeds : Option T3),
        self.resolve_position_ids (some p) ids embeds = some p) ∧
    (∀ (self : RobertaEmbeddings) (ids : Mat) (tt : Option Mat) (p : Mat)
        (train : Bool),
        self.forward_t (some ids) tt (some p) none train =
          .ok (self.forwardTail (self.word_embeddings.applyT ids train)
            (ids.dim0, ids.dim1) (some p) tt train)) ∧
    (∀ (self : RobertaEmbeddings) (tt : Option Mat) (p : Mat) (embeds : T3)
        (train : Bool),
        self.forward_t none tt (some p) (some embeds) train =
          .ok (self.forwardTail embeds (embeds.dim0, embeds.dim1) (some p) tt train)) :=
  ⟨fun _ _ _ _ => rfl, fun _ _ _ _ _ => rfl, fun _ _ _ _ _ => rfl⟩

/-- C6: when segment ids are absent, `forward_t` uses an all-zero integer
matrix of the resolved (batch, sequence) shape on the device of the base
embedding: replacing the absent argument by exactly that tensor leaves the
result unchanged, and that tensor is all-zero with the stated shape and
device. -/
theorem default_segment_ids_all_zero :
    (∀ (b s : Nat) (d : Device),
        (zerosMat b s d).dev = d ∧ MatShape (zerosMat b s d) b s ∧
        ∀ r ∈ (zerosMat b s d).rows, ∀ z ∈ r, z = (0 : Int)) ∧
    (∀ (self : RobertaEmbeddings) (base : T3) (shape : Nat × Nat)
        (pids : Option Mat) (train : Bool),
        self.forwardTail base shape pids none train =
          self.forwardTail base shape pids
            (some (zerosMat shape.1 shape.2 base.dev)) train) ∧
    (∀ (self : RobertaEmbeddings) (ids : Mat) (pos : Option Mat) (train : Bool),
        self.forward_t (some ids) none pos none train =
          self.forward_t (some ids)
            (some (zerosMat ids.dim0 ids.dim1
              (self.word_embeddings.applyT ids train).dev)) pos none train) ∧
    (∀ (self : RobertaEmbeddings) (pos : Option Mat) (embeds : T3) (train : Bool),
        self.forward_t none none pos (some embeds) train =
          self.forward_t none
            (some (zerosMat embeds.dim0 embeds.dim1 embeds.dev))
            pos (some embeds) train) := by
  have hz : ∀ (b s : Nat) (d : Device),
      (zerosMat b s d).dev = d ∧ MatShape (zerosMat b s d) b s ∧
      ∀ r ∈ (zerosMat b s d).rows, ∀ z ∈ r, z = (0 : Int) := by
    intro b s d
    refine ⟨rfl, zerosMat_shape b s d, ?_⟩
    intro r hr z hs
    rcases List.eq_of_mem_replicate hr with rfl
    exact List.eq_of_mem_replicate hs
  have htail : ∀ (self : RobertaEmbeddings) (base : T3) (shape : Nat × Nat)
      (pids : Option Mat) (train : Bool),
      self.forwardTail base shape pids none train =
        self.forwardTail base shape pids
          (some (zerosMat shape.1 shape.2 base.dev)) train := by
    intro self base shape pids train
    cases pids <;> rfl
  refine ⟨hz, htail, ?_, ?_⟩
  · intro self ids pos train
    simp only [RobertaEmbeddings.forward_t]
    exact congrArg Except.ok (htail self _ _ _ train)
  · intro self pos embeds train
    simp only [RobertaEmbeddings.forward_t]
    exact congrArg Except.ok (htail self _ _ _ train)

/-- C7: for every valid call, whether the base embedding came from token ids
or from precomputed token vectors, a successfully returned tensor has shape
(batch, sequence, hidden); hypotheses state that the learned tables map every
index to a hidden-size vector and that the external layer-norm and dropout
mask preserve shape (which `tch` guarantees). -/
theorem forward_output_shape (self : RobertaEmbeddings) (b s h : Nat)
    (hw : ∀ i : Int, (self.word_embeddings.lookup i).length = h)
    (hp : ∀ i : Int, (self.position_embeddings.lookup i).length = h)
    (ht : ∀ i : Int, (self.token_type_embeddings.lookup i).length = h)
    (hln : ∀ t : T3, T3Shape t b s h → T3Shape (self.layer_norm.app t) b s h)
    (hdm : ∀ t : T3, T3Shape t b s h → T3Shape (self.dropout.mask t) b s h)
    (token_type_ids position_ids : Option Mat)
    (htt : ∀ m : Mat, token_type_ids = some m → MatShape m b s)
    (hpos : ∀ m : Mat, position_ids = some m → MatShape m b s)
    (train : Bool) (out : T3) :
    (∀ ids : Mat, MatShape ids b s →
        self.forward_t (some ids) token_type_ids position_ids none train
          = .ok (some out) →
        T3Shape out b s h) ∧
    (∀ embeds : T3, T3Shape embeds b s h →
        self.forward_t none token_type_ids position_ids (some embeds) train
          = .ok (some out) →
        T3Shape out b s h) := by
  constructor
  · intro ids hids hfw
    have hbase : T3Shape (self.word_embeddings.applyT ids train) b s h :=
      applyM_shape hids hw
    simp only [RobertaEmbeddings.forward_t, Except.ok.injEq] at hfw
    refine forwardTail_shape hp ht hln hdm hbase (matShape_dim0_eq hids) (matShape_dim1_eq hids)
      ?_ htt hfw
    intro m hm
    cases position_ids with
    | some pex =>
        simp only [RobertaEmbeddings.resolve_position_ids, Option.some.injEq] at hm
        rw [← hm]
        exact hpos pex rfl
    | none =>
        simp only [RobertaEmbeddings.resolve_position_ids, Option.some.injEq] at hm
        rw [← hm]
        exact create_position_ids_shape hids
  · intro embeds hembeds hfw
    simp only [RobertaEmbeddings.forward_t, Except.ok.injEq] at hfw
    refine forwardTail_shape hp ht hln hdm hembeds (t3Shape_dim0_eq hembeds) (t3Shape_dim1_eq hembeds)
      ?_ htt hfw
    intro m hm
    cases position_ids with
    | some pex =>
        simp only [RobertaEmbeddings.resolve_position_ids, Option.some.injEq] at hm
        rw [← hm]
        exact hpos pex rfl
    | none =>
        simp only [RobertaEmbeddings.resolve_position_ids] at hm
        have hsh : MatShape m embeds.dim0 embeds.dim1 :=
          expand2_shape (by simpa [RobertaEmbeddings.create_position_ids_from_embeddings] using hm)
        rw [(t3Shape_dim0_eq hembeds)] at hsh
        rcases (t3Shape_dim1_eq hembeds) with hd1 | hb0
        · rw [hd1] at hsh
          exact hsh
        · subst hb0
          exact matShape_of_rows_nil (List.length_eq_zero.mp hsh.1) s

/-- Witness for C7: a concrete call on the token-id branch with batch 1,
sequence 2, hidden 2 yields an output of shape 1 × 2 × 2. -/
theorem forward_output_shape_witness :
    T3Shape ⟨0, [[[7, 10], [2, 5]]]⟩ 1 2 2 :=
  (forward_output_shape Mtest 1 2 2 (fun _ => rfl) (fun _ => rfl) (fun _ => rfl)
    (fun _ hs => hs) (fun _ hs => hs) none none (fun _ hm => nomatch hm)
    (fun _ hm => nomatch hm) false ⟨0, [[[7, 10], [2, 5]]]⟩).1
    ⟨0, [[5, 1]]⟩ (by decide) rfl

/-- C8 (counterexample): the composer built by `new` does not configure the
position lookup table with reserved padding index 1 — the position table is
created with the default embedding configuration, whose padding index is -1
(none reserved). -/
theorem new_position_table_not_padding_configured :
    Mtest.position_embeddings.config.padding_idx = -1 ∧ ((-1 : Int) ≠ 1) :=
  ⟨rfl, by decide⟩

/-- C8 (amended): construction from a configuration sets the padding-index
constant to 1 and configures the token lookup table with reserved padding
index 1; the position and segment tables are built with the default
configuration, which reserves no padding index.  Table sizes, the layer-norm
epsilon and the dropout probability come from the configuration as stated. -/
theorem new_configuration (config : BertConfig) (w p t : Int → List Int)
    (ln dm : T3 → T3) :
    (RobertaEmbeddings.new config w p t ln dm).padding_index = 1 ∧
    (RobertaEmbeddings.new config w p t ln dm).word_embeddings.config.padding_idx = 1 ∧
    (RobertaEmbeddings.new config w p t ln dm).position_embeddings.config
        = EmbeddingConfig.default ∧
    (RobertaEmbeddings.new config w p t ln dm).token_type_embeddings.config
        = EmbeddingConfig.default ∧
    (RobertaEmbeddings.new config w p t ln dm).word_embeddings.num_embeddings
        = config.vocab_size ∧
    (RobertaEmbeddings.new config w p t ln dm).position_embeddings.num_embeddings
        = config.max_position_embeddings ∧
    (RobertaEmbeddings.new config w p t ln dm).token_type_embeddings.num_embeddings
        = config.type_vocab_size ∧
    (RobertaEmbeddings.new config w p t ln dm).layer_norm.eps = 1 / 10 ^ 12 ∧
    (RobertaEmbeddings.new config w p t ln dm).dropout.p = config.hidden_dropout_prob :=
  ⟨rfl, rfl, rfl, rfl, rfl, rfl, rfl, rfl, rfl⟩

/-- C9: with training = false the regularization step is the identity, and
the output of `forward_t` does not depend on the stochastic dropout mask:
two composers differing only in the realised mask produce identical results
on identical inputs (the model is a pure function of its arguments, so two
calls with identical inputs and table contents are bit-identical). -/
theorem eval_mode_deterministic :
    (∀ (d : Dropout) (x : T3), d.apply_t x false = x) ∧
    (∀ (we pe te : Embedding) (ln : LayerNorm) (p : ℚ) (mask1 mask2 : T3 → T3)
        (pad : Int) (ids tt pos : Option Mat) (embeds : Option T3),
      RobertaEmbeddings.forward_t ⟨we, pe, te, ln, ⟨p, mask1⟩, pad⟩
          ids tt pos embeds false =
      RobertaEmbeddings.forward_t ⟨we, pe, te, ln, ⟨p, mask2⟩, pad⟩
          ids tt pos embeds false) := by
  refine ⟨fun _ _ => rfl, ?_⟩
  intro we pe te ln p mask1 mask2 pad ids tt pos embeds
  have hres : ∀ (pos2 ids2 : Option Mat) (embeds2 : Option T3),
      RobertaEmbeddings.resolve_position_ids ⟨we, pe, te, ln, ⟨p, mask1⟩, pad⟩
          pos2 ids2 embeds2 =
      RobertaEmbeddings.resolve_position_ids ⟨we, pe, te, ln, ⟨p, mask2⟩, pad⟩
          pos2 ids2 embeds2 := by
    intro pos2 ids2 embeds2
    cases pos2 <;> cases ids2 <;> cases embeds2 <;> rfl
  have htail : ∀ (base : T3) (shape : Nat × Nat) (pids tt2 : Option Mat),
      RobertaEmbeddings.forwardTail ⟨we, pe, te, ln, ⟨p, mask1⟩, pad⟩
          base shape pids tt2 false =
      RobertaEmbeddings.forwardTail ⟨we, pe, te, ln, ⟨p, mask2⟩, pad⟩
          base shape pids tt2 false := by
    intro base shape pids tt2
    cases pids with
    | none => rfl
    | some pp => cases tt2 <;> simp [RobertaEmbeddings.forwardTail, Dropout.apply_t]
  cases ids with
  | some idv =>
      cases embeds with
      | some e => rfl
      | none =>
          simp only [RobertaEmbeddings.forward_t]
          rw [hres, htail]
  | none =>
      cases embeds with
      | some e =>
          simp only [RobertaEmbeddings.forward_t]
          rw [hres, htail]
      | none => rfl

/-- C10: every entry of the padding-aware position ids lies between the
padding index and the padding index plus the row length, entries at padding
positions equal exactly the padding index, and every entry is below any bound
strictly greater than padding index + row length — in particular below
`max_position_embeddings` whenever padding_index + L < max_position_embeddings,
so the position-table lookup stays in bounds. -/
theorem position_ids_bounds (self : RobertaEmbeddings) (x : Mat) (maxP : Int) :
    List.Forall₂ (fun r pr =>
        (∀ y ∈ pr, self.padding_index ≤ y ∧ y ≤ self.padding_index + r.length) ∧
        (∀ q ∈ r.zip pr, q.1 = self.padding_index → q.2 = self.padding_index) ∧
        (self.padding_index + r.length < maxP → ∀ y ∈ pr, y < maxP))
      x.rows (self.create_position_ids_from_input_ids x).rows := by
  rw [create_position_ids_eq_cumulativeScheme]
  show List.Forall₂ _ x.rows (x.rows.map (cumulativeSchemeRow self.padding_index))
  rw [List.forall₂_map_right_iff, List.forall₂_same]
  intro r hr
  refine ⟨cumulativeSchemeRow_bounds _ r, cumulativeSchemeRow_pad _ r, ?_⟩
  intro hlt y hy
  have hb := cumulativeSchemeRow_bounds _ r y hy
  omega

/-- Witness for C10 on a concrete composer, input and position-table size. -/
theorem position_ids_bounds_witness :
    List.Forall₂ (fun r pr =>
        (∀ y ∈ pr, Mtest.padding_index ≤ y ∧ y ≤ Mtest.padding_index + r.length) ∧
        (∀ q ∈ r.zip pr, q.1 = Mtest.padding_index → q.2 = Mtest.padding_index) ∧
        (Mtest.padding_index + r.length < 514 → ∀ y ∈ pr, y < 514))
      (Mat.rows ⟨0, [[5, 7, 1, 1]]⟩)
      (Mtest.create_position_ids_from_input_ids ⟨0, [[5, 7, 1, 1]]⟩).rows :=
  position_ids_bounds Mtest ⟨0, [[5, 7, 1, 1]]⟩ 514

/-- Witness for C3 at a concrete composer: the neither-supplied call
returns the contract-violation error. -/
theorem forward_contract_violation_witness :
    Mtest.forward_t none none none none false = .error contractErr :=
  forward_contract_violation.2 Mtest none none false

/-- Witness for C5 at a concrete composer: explicit position ids colliding
with the padding index are resolved unchanged. -/
theorem explicit_position_ids_bypass_witness :
    Mtest.resolve_position_ids (some ⟨0, [[1, 1]]⟩) (some ⟨0, [[5, 1]]⟩) none
      = some ⟨0, [[1, 1]]⟩ :=
  explicit_position_ids_bypass.1 Mtest ⟨0, [[1, 1]]⟩ (some ⟨0, [[5, 1]]⟩) none

/-- Witness for C6 at a concrete composer and input: the absent segment-id
argument behaves as the all-zero matrix of the resolved shape on the device
of the base embedding. -/
theorem default_segment_ids_all_zero_witness :
    Mtest.forward_t (some ⟨0, [[5, 1]]⟩) none none none false =
      Mtest.forward_t (some ⟨0, [[5, 1]]⟩)
        (some (zerosMat (Mat.dim0 ⟨0, [[5, 1]]⟩) (Mat.dim1 ⟨0, [[5, 1]]⟩)
          (Mtest.word_embeddings.applyT ⟨0, [[5, 1]]⟩ false).dev))
        none none false :=
  default_segment_ids_all_zero.2.2.1 Mtest ⟨0, [[5, 1]]⟩ none false

/-- Witness for C8 at a concrete configuration. -/
theorem new_configuration_witness :
    (RobertaEmbeddings.new ⟨50000, 2, 514, 2, 1 / 10⟩ testTable testTable testTable
      id id).padding_index = 1 :=
  (new_configuration ⟨50000, 2, 514, 2, 1 / 10⟩ testTable testTable testTable id id).1

/-- Witness for C9: two composers differing only in the realised dropout mask
agree on a concrete evaluation-mode call. -/
theorem eval_mode_deterministic_witness :
    RobertaEmbeddings.forward_t
        ⟨⟨50000, 2, ⟨1⟩, testTable⟩, ⟨514, 2, ⟨-1⟩, testTable⟩,
         ⟨2, 2, ⟨-1⟩, testTable⟩, ⟨1 / 10 ^ 12, id⟩, ⟨1 / 10, id⟩, 1⟩
        (some ⟨0, [[5, 1]]⟩) none none none false =
    RobertaEmbeddings.forward_t
        ⟨⟨50000, 2, ⟨1⟩, testTable⟩, ⟨514, 2, ⟨-1⟩, testTable⟩,
         ⟨2, 2, ⟨-1⟩, testTable⟩, ⟨1 / 10 ^ 12, id⟩,
         ⟨1 / 10, fun _ => ⟨0, []⟩⟩, 1⟩
        (some ⟨0, [[5, 1]]⟩) none none none false :=
  eval_mode_deterministic.2 _ _ _ _ _ id (fun _ => ⟨0, []⟩) 1
    (some ⟨0, [[5, 1]]⟩) none none none
